import Mathlib

/-!
Shallow embedding of `src/data_pipeline.py` (APEX data pipeline, phase 6).

Modelling conventions:
* Python numbers (ints and floats coming from the upstream JSON) are modelled
  as exact rationals `ℚ`; integer-valued fields (player id, game sequence,
  games played) are modelled as `Int`.
* A Python dict row with possibly-missing keys is a structure of `Option`
  fields: `p['K']` (raising `KeyError` when absent) becomes a monadic bind
  that fails on `none`, and `p.get('K', 0)` becomes `Option.getD 0`.
* The mutable `players_db` dict built by the loop in `process_data` is an
  association list; `players_db[pid] = rec` is `dictInsert`, which replaces
  an existing binding in place or appends a new one, exactly like a Python
  dict assignment.
* The uncaught `KeyError` that a missing required field raises inside the
  loop is modelled by `Option`: one failing row makes the whole
  `processPlayers` return `none`.
-/

namespace ApexPipeline

/-- Upstream raw player row (one record of `LeagueDashPlayerStats`).
Every field may be absent, since the code distinguishes `p['K']` accesses
(which raise on a missing key) from `p.get('K', 0)` accesses. -/
structure RawPlayerRow where
  PLAYER_ID : Option Int
  PLAYER_NAME : Option String
  TEAM_ABBREVIATION : Option String
  GP : Option Int
  MIN : Option ℚ
  PTS : Option ℚ
  USG_PCT : Option ℚ
  EFG_PCT : Option ℚ
  TM_TOV_PCT : Option ℚ
  OREB_PCT : Option ℚ
  FGA : Option ℚ
  FTA : Option ℚ
  OFF_RATING : Option ℚ
  DEF_RATING : Option ℚ
deriving DecidableEq

/-- The `stats` sub-dict of a normalized player record
(`process_data`, lines 106-115). -/
structure PlayerStats where
  pts_per_100 : ℚ
  ortg : ℚ
  drtg : ℚ
  usg_pct : ℚ
  efg_pct : ℚ
  tov_pct : ℚ
  orb_pct : ℚ
  ftr : ℚ
deriving DecidableEq

/-- A normalized player record as stored in `players_db`
(`process_data`, lines 100-116). -/
structure NormalizedPlayer where
  id : String
  name : String
  team : String
  gp : Int
  min : ℚ
  stats : PlayerStats
deriving DecidableEq

/-- The scale-normalization expression the code inlines three times
(`v * 100 if v < 1 else v`, lines 110/112/113). -/
def normalizePct (v : ℚ) : ℚ := if v < 1 then v * 100 else v

/-- One iteration of the player loop in `process_data` (lines 92-116):
required fields are hard `p['K']` accesses (a missing key raises, modelled as `none`),
the fields `FGA`, `FTA`, `OFF_RATING`, `DEF_RATING`, `TM_TOV_PCT` are read
with `p.get('K', 0)`. -/
def processRow (p : RawPlayerRow) : Option NormalizedPlayer :=
  match p.PLAYER_ID, p.PLAYER_NAME, p.TEAM_ABBREVIATION, p.GP, p.MIN, p.PTS,
        p.USG_PCT, p.EFG_PCT, p.OREB_PCT with
  | some playerId, some nm, some tm, some gp, some mn, some pts,
    some usg, some efg, some orb =>
      some { id := toString playerId
             name := nm
             team := tm
             gp := gp
             min := mn
             stats :=
               { pts_per_100 := pts
                 ortg := p.OFF_RATING.getD 0
                 drtg := p.DEF_RATING.getD 0
                 usg_pct := normalizePct usg
                 efg_pct := efg
                 tov_pct := normalizePct (p.TM_TOV_PCT.getD 0)
                 orb_pct := normalizePct orb
                 ftr := if p.FGA.getD 0 > 0 then p.FTA.getD 0 / p.FGA.getD 0 else 0 } }
  | _, _, _, _, _, _, _, _, _ => none

/-- Python dict assignment `db[k] = v` on an association list: replaces the
binding in place when the key is present, appends otherwise. -/
def dictInsert (db : List (String × NormalizedPlayer)) (k : String)
    (v : NormalizedPlayer) : List (String × NormalizedPlayer) :=
  match db with
  | [] => [(k, v)]
  | kv :: rest => if kv.1 = k then (k, v) :: rest else kv :: dictInsert rest k v

/-- Python dict lookup `db.get(k)` on an association list. -/
def lookupD (db : List (String × NormalizedPlayer)) (k : String) :
    Option NormalizedPlayer :=
  match db with
  | [] => none
  | kv :: rest => if kv.1 = k then some kv.2 else lookupD rest k

/-- The player loop of `process_data` with the accumulated `players_db`:
one failing row aborts the whole run (uncaught `KeyError`). -/
def processPlayersAux (rows : List RawPlayerRow)
    (db : List (String × NormalizedPlayer)) :
    Option (List (String × NormalizedPlayer)) :=
  match rows with
  | [] => some db
  | p :: rest =>
    match processRow p with
    | none => none
    | some np => processPlayersAux rest (dictInsert db np.id np)

/-- `players_db` as built by `process_data` lines 89-116, starting empty. -/
def processPlayers (rows : List RawPlayerRow) :
    Option (List (String × NormalizedPlayer)) :=
  processPlayersAux rows []

/-- Specification-side fold for the last-write-wins property: the record of
the last row in iteration order whose normalized id equals `k`. -/
def lastStep (k : String) (acc : Option NormalizedPlayer) (p : RawPlayerRow) :
    Option NormalizedPlayer :=
  match processRow p with
  | some np => if np.id = k then some np else acc
  | none => acc

/-- Specification-side definition: the normalized record of the last row
carrying key `k` (last-write-wins semantics, spec §3 invariant). -/
def lastMatch (rows : List RawPlayerRow) (k : String) : Option NormalizedPlayer :=
  rows.foldl (lastStep k) none

/-- Upstream raw game row (one record of `ScoreboardV2` / `GameHeader`).
`fetch_schedule` accesses all five fields unconditionally; a missing field
would abort the fetch into the `except` branch, so rows reaching the
projection have all fields. -/
structure RawGameRow where
  GAME_ID : String
  GAME_DATE_EST : String
  HOME_TEAM_ID : Int
  VISITOR_TEAM_ID : Int
  GAME_SEQUENCE : Int
deriving DecidableEq

/-- A JSON-ish value stored in a schedule record: string or integer. -/
inductive GVal where
  | s (v : String)
  | i (v : Int)
deriving DecidableEq

/-- `team_map.get(tid, 'UNK')` — total lookup in the team directory with
the `"UNK"` sentinel default (`fetch_schedule` lines 54-55). -/
def teamLookup (m : List (Int × String)) (tid : Int) : String :=
  match m with
  | [] => "UNK"
  | kv :: rest => if kv.1 = tid then kv.2 else teamLookup rest tid

/-- The `game_obj` dict literal built per raw game row
(`fetch_schedule` lines 51-57), with its literal Python keys. -/
def gameObj (team_map : List (Int × String)) (g : RawGameRow) :
    List (String × GVal) :=
  [("gameId", GVal.s g.GAME_ID),
   ("date", GVal.s g.GAME_DATE_EST),
   ("homeTeamId", GVal.s (teamLookup team_map g.HOME_TEAM_ID)),
   ("awayTeamId", GVal.s (teamLookup team_map g.VISITOR_TEAM_ID)),
   ("sequence", GVal.i g.GAME_SEQUENCE)]

/-- The schedule projection loop in `fetch_schedule` (success path). -/
def fetchSchedule (team_map : List (Int × String)) (games : List RawGameRow) :
    List (List (String × GVal)) :=
  games.map (gameObj team_map)

/-- Configured season constant. -/
def SEASON : String := "2024-25"

/-- `apex_db['metadata']` (`process_data` lines 120-123). -/
structure Metadata where
  generated_at : String
  season : String
deriving DecidableEq

/-- The assembled snapshot `apex_db` (`process_data` lines 119-126). -/
structure ApexDB where
  metadata : Metadata
  games : List (List (String × GVal))
  players : List (String × NormalizedPlayer)
deriving DecidableEq

/-- `process_data` given the already-fetched upstream data: assembles the
snapshot, failing when a player row is missing a required field. -/
def processData (now : String) (team_map : List (Int × String))
    (rawGames : List RawGameRow) (rawPlayers : List RawPlayerRow) :
    Option ApexDB :=
  (processPlayers rawPlayers).map (fun db =>
    { metadata := { generated_at := now, season := SEASON }
      games := fetchSchedule team_map rawGames
      players := db })

/-- Outcome of `main` after `process_data` (lines 136-143): either the
snapshot is written, or a warning is printed and no file results. -/
inductive MainOutcome where
  | saved (db : ApexDB)
  | warned
deriving DecidableEq

/-- The write gate of `main`: `if db['players'] and db['games']` — Python
truthiness of the dict and the list, i.e. both non-empty. -/
def mainOutcome (db : ApexDB) : MainOutcome :=
  if !db.players.isEmpty && !db.games.isEmpty then MainOutcome.saved db
  else MainOutcome.warned

/-! ### Inversion of `processRow` -/

/-- Successful processing of a row determines every required field and the
shape of the produced record. -/
theorem processRow_some_inv (p : RawPlayerRow) (np : NormalizedPlayer)
    (h : processRow p = some np) :
    ∃ playerId nm tm gp mn pts usg efg orb,
      p.PLAYER_ID = some playerId ∧ p.PLAYER_NAME = some nm ∧
      p.TEAM_ABBREVIATION = some tm ∧ p.GP = some gp ∧ p.MIN = some mn ∧
      p.PTS = some pts ∧ p.USG_PCT = some usg ∧ p.EFG_PCT = some efg ∧
      p.OREB_PCT = some orb ∧
      np = { id := toString playerId, name := nm, team := tm, gp := gp, min := mn,
             stats := { pts_per_100 := pts,
                        ortg := p.OFF_RATING.getD 0,
                        drtg := p.DEF_RATING.getD 0,
                        usg_pct := normalizePct usg,
                        efg_pct := efg,
                        tov_pct := normalizePct (p.TM_TOV_PCT.getD 0),
                        orb_pct := normalizePct orb,
                        ftr := if p.FGA.getD 0 > 0 then p.FTA.getD 0 / p.FGA.getD 0
                               else 0 } } := by
  unfold processRow at h
  split at h
  · rename_i playerId nm tm gp mn pts usg efg orb h1 h2 h3 h4 h5 h6 h7 h8 h9
    exact ⟨playerId, nm, tm, gp, mn, pts, usg, efg, orb, h1, h2, h3, h4, h5, h6,
           h7, h8, h9, (Option.some.inj h).symm⟩
  · exact absurd h (by simp)

/-! ### Claims C4, C1, C2 -/

/-- C4: the scale-normalization function `normalize(v) = v*100 if v < 1 else v`
is idempotent on inputs at or above 1. -/
theorem c4_normalize_idempotent (v : ℚ) (h : 1 ≤ v) :
    normalizePct (normalizePct v) = normalizePct v := by
  unfold normalizePct
  rw [if_neg (not_lt.mpr h), if_neg (not_lt.mpr h)]

theorem c4_witness :
    (1 : ℚ) ≤ 3 ∧ normalizePct (normalizePct 3) = normalizePct 3 :=
  ⟨by norm_num, c4_normalize_idempotent 3 (by norm_num)⟩

/-- Concrete raw row matching the spec example (`USG_PCT = 0.257`,
`TM_TOV_PCT = 0.128`, `OREB_PCT = 0.06`). -/
def c1row : RawPlayerRow :=
  { PLAYER_ID := some 201939
    PLAYER_NAME := some "Stephen Curry"
    TEAM_ABBREVIATION := some "GSW"
    GP := some 70
    MIN := some 34
    PTS := some 40
    USG_PCT := some (257/1000)
    EFG_PCT := some (6/10)
    TM_TOV_PCT := some (128/1000)
    OREB_PCT := some (6/100)
    FGA := some 20
    FTA := some 5
    OFF_RATING := some 118
    DEF_RATING := some 110 }

/-- C1: the scale-normalization rule is applied independently to each of
`USG_PCT`, `TM_TOV_PCT` and `OREB_PCT`: a value `v < 1` is stored as
`v * 100`, any other value is stored unchanged. -/
theorem c1_scale_normalization (p : RawPlayerRow) (np : NormalizedPlayer)
    (u t o : ℚ) (hu : p.USG_PCT = some u) (ht : p.TM_TOV_PCT = some t)
    (ho : p.OREB_PCT = some o) (h : processRow p = some np) :
    np.stats.usg_pct = (if u < 1 then u * 100 else u) ∧
    np.stats.tov_pct = (if t < 1 then t * 100 else t) ∧
    np.stats.orb_pct = (if o < 1 then o * 100 else o) := by
  obtain ⟨pid, nm, tm, gp, mn, pts, usg, efg, orb, h1, h2, h3, h4, h5, h6, h7,
          h8, h9, rfl⟩ := processRow_some_inv p np h
  rw [hu] at h7
  rw [ho] at h9
  cases Option.some.inj h7
  cases Option.some.inj h9
  refine ⟨rfl, ?_, rfl⟩
  show normalizePct (p.TM_TOV_PCT.getD 0) = _
  rw [ht]
  rfl

theorem c1_witness :
    ∃ np, processRow c1row = some np ∧
      np.stats.usg_pct = 257/10 ∧ np.stats.tov_pct = 128/10 ∧
      np.stats.orb_pct = 6 := by
  rcases hnp : processRow c1row with _ | np
  · exact absurd hnp (by decide)
  · have h := c1_scale_normalization c1row np (257/1000) (128/1000) (6/100)
      rfl rfl rfl hnp
    refine ⟨np, rfl, ?_, ?_, ?_⟩
    · rw [h.1, if_pos (by norm_num : (257/1000 : ℚ) < 1)]
      norm_num
    · rw [h.2.1, if_pos (by norm_num : (128/1000 : ℚ) < 1)]
      norm_num
    · rw [h.2.2, if_pos (by norm_num : (6/100 : ℚ) < 1)]
      norm_num

/-- Concrete raw row with `FGA = 10`, `FTA = 5` for the `ftr` example. -/
def c2row : RawPlayerRow :=
  { c1row with FGA := some 10, FTA := some 5 }

/-- C2: `ftr = fta / fga` when `fga > 0`, and `ftr = 0` when `fga = 0`
(the division is guarded). -/
theorem c2_ftr (p : RawPlayerRow) (np : NormalizedPlayer)
    (h : processRow p = some np) :
    (p.FGA.getD 0 > 0 → np.stats.ftr = p.FTA.getD 0 / p.FGA.getD 0) ∧
    (p.FGA.getD 0 = 0 → np.stats.ftr = 0) := by
  obtain ⟨pid, nm, tm, gp, mn, pts, usg, efg, orb, h1, h2, h3, h4, h5, h6, h7,
          h8, h9, rfl⟩ := processRow_some_inv p np h
  constructor
  · intro hf
    show (if p.FGA.getD 0 > 0 then p.FTA.getD 0 / p.FGA.getD 0 else 0) = _
    rw [if_pos hf]
  · intro hf
    show (if p.FGA.getD 0 > 0 then p.FTA.getD 0 / p.FGA.getD 0 else 0) = 0
    rw [if_neg]
    rw [hf]
    exact lt_irrefl 0

theorem c2_witness :
    ∃ np, processRow c2row = some np ∧ np.stats.ftr = 1/2 := by
  rcases hnp : processRow c2row with _ | np
  · exact absurd hnp (by decide)
  · have h := (c2_ftr c2row np hnp).1 (by norm_num [c2row, c1row])
    refine ⟨np, rfl, ?_⟩
    rw [h]
    norm_num [c2row, c1row]

/-! ### Association-list lemmas for the `players_db` dict -/

theorem mem_dictInsert (db : List (String × NormalizedPlayer)) (k : String)
    (v : NormalizedPlayer) (x : String × NormalizedPlayer)
    (hx : x ∈ dictInsert db k v) : x = (k, v) ∨ x ∈ db := by
  induction db with
  | nil =>
    simp [dictInsert] at hx
    exact Or.inl hx
  | cons kv rest ih =>
    by_cases h1 : kv.1 = k
    · rw [dictInsert, if_pos h1] at hx
      rcases List.mem_cons.mp hx with heq | hin
      · exact Or.inl heq
      · exact Or.inr (List.mem_cons_of_mem _ hin)
    · rw [dictInsert, if_neg h1] at hx
      rcases List.mem_cons.mp hx with heq | hin
      · exact Or.inr (heq ▸ List.mem_cons_self _ _)
      · rcases ih hin with heq | hin2
        · exact Or.inl heq
        · exact Or.inr (List.mem_cons_of_mem _ hin2)

theorem mem_keys_dictInsert (db : List (String × NormalizedPlayer)) (k : String)
    (v : NormalizedPlayer) (a : String)
    (ha : a ∈ (dictInsert db k v).map Prod.fst) :
    a ∈ db.map Prod.fst ∨ a = k := by
  rcases List.mem_map.mp ha with ⟨x, hx, hax⟩
  rcases mem_dictInsert db k v x hx with heq | hin
  · right
    rw [← hax, heq]
  · left
    exact hax ▸ List.mem_map_of_mem Prod.fst hin

theorem nodup_keys_dictInsert (db : List (String × NormalizedPlayer))
    (k : String) (v : NormalizedPlayer)
    (h : (db.map Prod.fst).Nodup) :
    ((dictInsert db k v).map Prod.fst).Nodup := by
  induction db with
  | nil => simp [dictInsert]
  | cons kv rest ih =>
    rw [List.map_cons, List.nodup_cons] at h
    by_cases h1 : kv.1 = k
    · rw [dictInsert, if_pos h1, List.map_cons, List.nodup_cons]
      exact ⟨h1 ▸ h.1, h.2⟩
    · rw [dictInsert, if_neg h1, List.map_cons, List.nodup_cons]
      refine ⟨fun hmem => ?_, ih h.2⟩
      rcases mem_keys_dictInsert rest k v kv.1 hmem with hin | heq
      · exact h.1 hin
      · exact h1 heq

theorem lookupD_dictInsert (db : List (String × NormalizedPlayer))
    (k : String) (v : NormalizedPlayer) (k' : String) :
    lookupD (dictInsert db k v) k' = if k' = k then some v else lookupD db k' := by
  induction db with
  | nil =>
    by_cases h : k' = k
    · subst h
      simp [dictInsert, lookupD]
    · simp [dictInsert, lookupD, h, Ne.symm h]
  | cons kv rest ih =>
    by_cases h1 : kv.1 = k
    · by_cases h2 : k' = k
      · subst h2
        rw [dictInsert, if_pos h1, lookupD, if_pos rfl, if_pos rfl]
      · rw [dictInsert, if_pos h1, lookupD, if_neg (fun hc => h2 hc.symm),
            if_neg h2, lookupD, if_neg (fun hc => h2 (h1 ▸ hc).symm)]
    · by_cases h3 : kv.1 = k'
      · have hk : ¬(k' = k) := fun hc => h1 (h3.trans hc)
        rw [dictInsert, if_neg h1, lookupD, if_pos h3, if_neg hk, lookupD,
            if_pos h3]
      · rw [dictInsert, if_neg h1, lookupD, if_neg h3, ih, lookupD, if_neg h3]

/-! ### Invariants of the player loop -/

theorem processPlayersAux_mem (rows : List RawPlayerRow) :
    ∀ db out, processPlayersAux rows db = some out →
    ∀ kv ∈ out, kv ∈ db ∨
      ∃ r ∈ rows, processRow r = some kv.2 ∧ kv.1 = kv.2.id := by
  induction rows with
  | nil =>
    intro db out h kv hkv
    rw [processPlayersAux] at h
    exact Or.inl ((Option.some.inj h) ▸ hkv)
  | cons p rest ih =>
    intro db out h kv hkv
    rw [processPlayersAux] at h
    cases hp : processRow p with
    | none =>
      rw [hp] at h
      exact absurd h (by simp)
    | some np =>
      rw [hp] at h
      rcases ih _ _ h kv hkv with hin | ⟨r, hr, hpr, hid⟩
      · rcases mem_dictInsert db np.id np kv hin with heq | hin2
        · right
          refine ⟨p, List.mem_cons_self _ _, ?_, ?_⟩
          · rw [heq]
            exact hp
          · rw [heq]
        · exact Or.inl hin2
      · exact Or.inr ⟨r, List.mem_cons_of_mem _ hr, hpr, hid⟩

theorem processPlayersAux_nodup (rows : List RawPlayerRow) :
    ∀ db out, (db.map Prod.fst).Nodup →
    processPlayersAux rows db = some out → (out.map Prod.fst).Nodup := by
  induction rows with
  | nil =>
    intro db out hnd h
    rw [processPlayersAux] at h
    exact (Option.some.inj h) ▸ hnd
  | cons p rest ih =>
    intro db out hnd h
    rw [processPlayersAux] at h
    cases hp : processRow p with
    | none =>
      rw [hp] at h
      exact absurd h (by simp)
    | some np =>
      rw [hp] at h
      exact ih _ _ (nodup_keys_dictInsert db np.id np hnd) h

theorem processPlayersAux_lookup (rows : List RawPlayerRow) :
    ∀ db out, processPlayersAux rows db = some out →
    ∀ k, lookupD out k = rows.foldl (lastStep k) (lookupD db k) := by
  induction rows with
  | nil =>
    intro db out h k
    rw [processPlayersAux] at h
    rw [← Option.some.inj h, List.foldl_nil]
  | cons p rest ih =>
    intro db out h k
    rw [processPlayersAux] at h
    cases hp : processRow p with
    | none =>
      rw [hp] at h
      exact absurd h (by simp)
    | some np =>
      rw [hp] at h
      rw [List.foldl_cons]
      have hstep : lastStep k (lookupD db k) p =
          if k = np.id then some np else lookupD db k := by
        simp only [lastStep, hp]
        by_cases hk : np.id = k
        · rw [if_pos hk, if_pos hk.symm]
        · rw [if_neg hk, if_neg (fun hc => hk hc.symm)]
      rw [hstep, ← lookupD_dictInsert db np.id np k]
      exact ih _ _ h k

/-! ### Claim C3 -/

/-- C3: in the produced `players_db`, every key equals the `id` of its
record, every `id` is the string form of the originating row's `PLAYER_ID`,
keys are unique, and lookups obey last-write-wins over iteration order. -/
theorem c3_players_mapping (rows : List RawPlayerRow)
    (out : List (String × NormalizedPlayer))
    (h : processPlayers rows = some out) :
    (∀ kv ∈ out, kv.1 = kv.2.id) ∧
    (∀ kv ∈ out, ∃ r ∈ rows, ∃ i : Int, r.PLAYER_ID = some i ∧
        kv.2.id = toString i ∧ processRow r = some kv.2) ∧
    (out.map Prod.fst).Nodup ∧
    (∀ k, lookupD out k = lastMatch rows k) := by
  rw [processPlayers] at h
  refine ⟨?_, ?_, ?_, ?_⟩
  · intro kv hkv
    rcases processPlayersAux_mem rows [] out h kv hkv with hin | ⟨_, _, _, hid⟩
    · exact absurd hin (List.not_mem_nil kv)
    · exact hid
  · intro kv hkv
    rcases processPlayersAux_mem rows [] out h kv hkv with hin | ⟨r, hr, hpr, _⟩
    · exact absurd hin (List.not_mem_nil kv)
    · rcases processRow_some_inv r kv.2 hpr with
        ⟨playerId, nm, tm, gp, mn, pts, usg, efg, orb, h1, _, _, _, _, _, _, _,
         _, hrec⟩
      exact ⟨r, hr, playerId, h1, by rw [hrec], hpr⟩
  · exact processPlayersAux_nodup rows [] out (by simp) h
  · intro k
    rw [lastMatch, processPlayersAux_lookup rows [] out h k, lookupD]

/-- Two concrete rows with the same `PLAYER_ID` but different stats. -/
def c3rowA : RawPlayerRow := { c1row with PLAYER_ID := some 1, PTS := some 10 }

def c3rowB : RawPlayerRow := { c1row with PLAYER_ID := some 1, PTS := some 20 }

def c3rows : List RawPlayerRow := [c3rowA, c3rowB]

theorem c3_witness :
    (((processPlayers c3rows).getD []).map Prod.fst).Nodup ∧
    lookupD ((processPlayers c3rows).getD []) "1" = lastMatch c3rows "1" := by
  have h := c3_players_mapping c3rows ((processPlayers c3rows).getD []) (by rfl)
  exact ⟨h.2.2.1, h.2.2.2 "1"⟩

/-! ### Required vs optional fields -/

/-- A row fails to process exactly when one of the nine hard-accessed
fields is missing. -/
theorem processRow_eq_none_iff (p : RawPlayerRow) :
    processRow p = none ↔
      (p.PLAYER_ID = none ∨ p.PLAYER_NAME = none ∨
       p.TEAM_ABBREVIATION = none ∨ p.GP = none ∨ p.MIN = none ∨
       p.PTS = none ∨ p.USG_PCT = none ∨ p.EFG_PCT = none ∨
       p.OREB_PCT = none) := by
  constructor
  · intro h
    by_contra hc
    push_neg at hc
    obtain ⟨n1, n2, n3, n4, n5, n6, n7, n8, n9⟩ := hc
    rcases Option.ne_none_iff_exists.mp n1 with ⟨a1, h1⟩
    rcases Option.ne_none_iff_exists.mp n2 with ⟨a2, h2⟩
    rcases Option.ne_none_iff_exists.mp n3 with ⟨a3, h3⟩
    rcases Option.ne_none_iff_exists.mp n4 with ⟨a4, h4⟩
    rcases Option.ne_none_iff_exists.mp n5 with ⟨a5, h5⟩
    rcases Option.ne_none_iff_exists.mp n6 with ⟨a6, h6⟩
    rcases Option.ne_none_iff_exists.mp n7 with ⟨a7, h7⟩
    rcases Option.ne_none_iff_exists.mp n8 with ⟨a8, h8⟩
    rcases Option.ne_none_iff_exists.mp n9 with ⟨a9, h9⟩
    simp [processRow, ← h1, ← h2, ← h3, ← h4, ← h5, ← h6, ← h7, ← h8, ← h9]
      at h
  · intro h
    cases hres : processRow p with
    | none => rfl
    | some np =>
      rcases processRow_some_inv p np hres with
        ⟨_, _, _, _, _, _, _, _, _, h1, h2, h3, h4, h5, h6, h7, h8, h9, _⟩
      rcases h with h | h | h | h | h | h | h | h | h <;> simp_all

/-- One failing row aborts the whole player loop, whatever the accumulated
dict is. -/
theorem processPlayersAux_none (rows : List RawPlayerRow) :
    ∀ p ∈ rows, processRow p = none →
    ∀ db, processPlayersAux rows db = none := by
  induction rows with
  | nil =>
    intro p hp
    exact absurd hp (List.not_mem_nil p)
  | cons q rest ih =>
    intro p hp hfail db
    rw [processPlayersAux]
    cases hq : processRow q with
    | none => rfl
    | some nq =>
      rcases List.mem_cons.mp hp with heq | hin
      · subst heq
        rw [hq] at hfail
        exact absurd hfail (by simp)
      · exact ih p hin hfail _

/-! ### Claim C8 -/

/-- Concrete row with every field present except `GP`. -/
def c8row : RawPlayerRow := { c1row with GP := none }

/-- C8 counterexample: a row with name, team and every percentage field
present but `GP` missing still fails to process, so missing name, team or
percentage fields are not the only hard-failure causes. -/
theorem c8_counterexample :
    processRow c8row = none ∧
    c8row.PLAYER_NAME ≠ none ∧ c8row.TEAM_ABBREVIATION ≠ none ∧
    c8row.USG_PCT ≠ none ∧ c8row.EFG_PCT ≠ none ∧
    c8row.TM_TOV_PCT ≠ none ∧ c8row.OREB_PCT ≠ none := by decide

/-- C8 (amended): the normalizer fails on a row exactly when one of the
required fields `PLAYER_ID`, `PLAYER_NAME`, `TEAM_ABBREVIATION`, `GP`,
`MIN`, `PTS`, `USG_PCT`, `EFG_PCT`, `OREB_PCT` is missing, and such a
failure is fatal to the whole run: the full player mapping is not
produced. -/
theorem c8_required_fields :
    (∀ p : RawPlayerRow, processRow p = none ↔
      (p.PLAYER_ID = none ∨ p.PLAYER_NAME = none ∨
       p.TEAM_ABBREVIATION = none ∨ p.GP = none ∨ p.MIN = none ∨
       p.PTS = none ∨ p.USG_PCT = none ∨ p.EFG_PCT = none ∨
       p.OREB_PCT = none)) ∧
    (∀ (rows : List RawPlayerRow) (p : RawPlayerRow), p ∈ rows →
      processRow p = none → processPlayers rows = none) :=
  ⟨processRow_eq_none_iff,
   fun rows p hp hfail => processPlayersAux_none rows p hp hfail []⟩

theorem c8_witness : processPlayers [c8row] = none :=
  c8_required_fields.2 [c8row] c8row (List.mem_cons_self _ _)
    ((c8_required_fields.1 c8row).mpr
      (Or.inr (Or.inr (Or.inr (Or.inl rfl)))))

/-! ### Claim C10 -/

/-- C10: `FGA`, `FTA`, `OFF_RATING`, `DEF_RATING`, `TM_TOV_PCT` are optional
and default to 0 when absent (so a missing `FGA` forces `ftr = 0` and a
missing `TM_TOV_PCT` forces `tov_pct = 0`), while the other nine fields are
required: a row processes successfully whenever all nine are present, and
fails whenever any of them is absent. -/
theorem c10_optional_vs_required (p : RawPlayerRow) :
    ((p.PLAYER_ID.isSome ∧ p.PLAYER_NAME.isSome ∧
      p.TEAM_ABBREVIATION.isSome ∧ p.GP.isSome ∧ p.MIN.isSome ∧
      p.PTS.isSome ∧ p.USG_PCT.isSome ∧ p.EFG_PCT.isSome ∧
      p.OREB_PCT.isSome) → (processRow p).isSome) ∧
    (∀ np, processRow p = some np →
      (p.FGA = none → np.stats.ftr = 0) ∧
      (p.FTA = none → np.stats.ftr = 0) ∧
      (p.TM_TOV_PCT = none → np.stats.tov_pct = 0) ∧
      (p.OFF_RATING = none → np.stats.ortg = 0) ∧
      (p.DEF_RATING = none → np.stats.drtg = 0)) ∧
    ((p.PLAYER_ID = none ∨ p.PLAYER_NAME = none ∨
      p.TEAM_ABBREVIATION = none ∨ p.GP = none ∨ p.MIN = none ∨
      p.PTS = none ∨ p.USG_PCT = none ∨ p.EFG_PCT = none ∨
      p.OREB_PCT = none) → processRow p = none) := by
  refine ⟨?_, ?_, (processRow_eq_none_iff p).mpr⟩
  · intro ⟨n1, n2, n3, n4, n5, n6, n7, n8, n9⟩
    rcases Option.isSome_iff_exists.mp n1 with ⟨a1, h1⟩
    rcases Option.isSome_iff_exists.mp n2 with ⟨a2, h2⟩
    rcases Option.isSome_iff_exists.mp n3 with ⟨a3, h3⟩
    rcases Option.isSome_iff_exists.mp n4 with ⟨a4, h4⟩
    rcases Option.isSome_iff_exists.mp n5 with ⟨a5, h5⟩
    rcases Option.isSome_iff_exists.mp n6 with ⟨a6, h6⟩
    rcases Option.isSome_iff_exists.mp n7 with ⟨a7, h7⟩
    rcases Option.isSome_iff_exists.mp n8 with ⟨a8, h8⟩
    rcases Option.isSome_iff_exists.mp n9 with ⟨a9, h9⟩
    simp [processRow, h1, h2, h3, h4, h5, h6, h7, h8, h9]
  · intro np h
    obtain ⟨pid, nm, tm, gp, mn, pts, usg, efg, orb, h1, h2, h3, h4, h5, h6,
            h7, h8, h9, rfl⟩ := processRow_some_inv p np h
    refine ⟨?_, ?_, ?_, ?_, ?_⟩
    · intro hf
      show (if p.FGA.getD 0 > 0 then p.FTA.getD 0 / p.FGA.getD 0 else 0) = 0
      rw [hf]
      simp
    · intro hf
      show (if p.FGA.getD 0 > 0 then p.FTA.getD 0 / p.FGA.getD 0 else 0) = 0
      rw [hf]
      simp
    · intro hf
      show normalizePct (p.TM_TOV_PCT.getD 0) = 0
      rw [hf]
      simp [normalizePct]
    · intro hf
      show p.OFF_RATING.getD 0 = 0
      rw [hf]
      rfl
    · intro hf
      show p.DEF_RATING.getD 0 = 0
      rw [hf]
      rfl

/-- Concrete row missing `FGA` and `TM_TOV_PCT` but with `FTA` positive. -/
def c10row : RawPlayerRow :=
  { c1row with FGA := none, TM_TOV_PCT := none, FTA := some 5 }

theorem c10_witness :
    ∃ np, processRow c10row = some np ∧
      np.stats.ftr = 0 ∧ np.stats.tov_pct = 0 := by
  rcases hnp : processRow c10row with _ | np
  · exact absurd hnp (by decide)
  · have h := (c10_optional_vs_required c10row).2.1 np hnp
    exact ⟨np, rfl, h.1 rfl, h.2.2.1 rfl⟩

/-! ### Claim C5 -/

/-- Concrete row whose `EFG_PCT` and `OREB_PCT` both carry the fractional
upstream value 0.06. -/
def c5row : RawPlayerRow := { c1row with EFG_PCT := some (6/100) }

/-- C5 counterexample: the same fractional upstream value 0.06 is rescaled
to 6 when it arrives as `OREB_PCT` but stored unchanged as 0.06 when it
arrives as `EFG_PCT`; `efg_pct` is therefore not converted to
whole-number-percentage scale. -/
theorem c5_counterexample :
    (processRow c5row).map (fun np => np.stats.efg_pct) = some ((6:ℚ)/100) ∧
    (processRow c5row).map (fun np => np.stats.orb_pct) = some ((6:ℚ)) ∧
    normalizePct (6/100) = 6 ∧ ((6:ℚ)/100) < 1 := by
  norm_num [c5row, c1row, processRow, normalizePct, Option.map]

/-- C5 (amended): `usg_pct`, `tov_pct` and `orb_pct` are scale-normalized,
so they land in [0, 100] whenever the upstream value does, while `efg_pct`
is passed through unchanged and is in whole-number-percentage scale only if
the upstream value already is. -/
theorem c5_percent_scale (p : RawPlayerRow) (np : NormalizedPlayer)
    (u t o e : ℚ) (hu : p.USG_PCT = some u) (ht : p.TM_TOV_PCT = some t)
    (ho : p.OREB_PCT = some o) (he : p.EFG_PCT = some e)
    (h : processRow p = some np) :
    np.stats.efg_pct = e ∧
    (0 ≤ u → u ≤ 100 → 0 ≤ np.stats.usg_pct ∧ np.stats.usg_pct ≤ 100) ∧
    (0 ≤ t → t ≤ 100 → 0 ≤ np.stats.tov_pct ∧ np.stats.tov_pct ≤ 100) ∧
    (0 ≤ o → o ≤ 100 → 0 ≤ np.stats.orb_pct ∧ np.stats.orb_pct ≤ 100) := by
  have key : ∀ v : ℚ, 0 ≤ v → v ≤ 100 →
      0 ≤ normalizePct v ∧ normalizePct v ≤ 100 := by
    intro v h0 h100
    unfold normalizePct
    split
    · constructor
      · exact mul_nonneg h0 (by norm_num)
      · nlinarith
    · exact ⟨h0, h100⟩
  obtain ⟨pid, nm, tm, gp, mn, pts, usg, efg, orb, h1, h2, h3, h4, h5, h6, h7,
          h8, h9, rfl⟩ := processRow_some_inv p np h
  rw [hu] at h7
  rw [he] at h8
  rw [ho] at h9
  cases Option.some.inj h7
  cases Option.some.inj h8
  cases Option.some.inj h9
  refine ⟨rfl, fun a b => key u a b, fun a b => ?_, fun a b => key o a b⟩
  show 0 ≤ normalizePct (p.TM_TOV_PCT.getD 0) ∧
       normalizePct (p.TM_TOV_PCT.getD 0) ≤ 100
  rw [ht]
  exact key t a b

theorem c5_witness :
    ∃ np, processRow c1row = some np ∧ np.stats.efg_pct = 6/10 ∧
      0 ≤ np.stats.usg_pct ∧ np.stats.usg_pct ≤ 100 := by
  rcases hnp : processRow c1row with _ | np
  · exact absurd hnp (by decide)
  · have h := c5_percent_scale c1row np (257/1000) (128/1000) (6/100) (6/10)
      rfl rfl rfl rfl hnp
    have hb := h.2.1 (by norm_num) (by norm_num)
    exact ⟨np, rfl, h.1, hb.1, hb.2⟩

/-! ### Claim C6 -/

/-- Concrete one-team directory. -/
def c6tm : List (Int × String) := [(1610612737, "ATL")]

/-- Concrete raw game row. -/
def c6g : RawGameRow :=
  { GAME_ID := "0022400567"
    GAME_DATE_EST := "2024-01-30T00:00:00"
    HOME_TEAM_ID := 1610612737
    VISITOR_TEAM_ID := 42
    GAME_SEQUENCE := 1 }

/-- C6 counterexample: the projected schedule record's field names are
`homeTeamId` and `awayTeamId` (holding abbreviations), not the claimed
`homeTeamAbbrev` and `awayTeamAbbrev`. -/
theorem c6_counterexample :
    (gameObj c6tm c6g).map Prod.fst =
      ["gameId", "date", "homeTeamId", "awayTeamId", "sequence"] ∧
    "homeTeamAbbrev" ∉ (gameObj c6tm c6g).map Prod.fst ∧
    "awayTeamAbbrev" ∉ (gameObj c6tm c6g).map Prod.fst := by decide

/-- C6 (amended): every projected schedule record has exactly the five
fields `gameId`, `date`, `homeTeamId`, `awayTeamId`, `sequence`, where
`homeTeamId`/`awayTeamId` hold the home/away team abbreviations obtained by
directory lookup (with the `"UNK"` default), `gameId` and `date` are the
upstream strings and `sequence` the upstream integer. -/
theorem c6_schedule_fields (team_map : List (Int × String)) (g : RawGameRow) :
    gameObj team_map g =
      [("gameId", GVal.s g.GAME_ID),
       ("date", GVal.s g.GAME_DATE_EST),
       ("homeTeamId", GVal.s (teamLookup team_map g.HOME_TEAM_ID)),
       ("awayTeamId", GVal.s (teamLookup team_map g.VISITOR_TEAM_ID)),
       ("sequence", GVal.i g.GAME_SEQUENCE)] ∧
    ((gameObj team_map g).map Prod.fst).Nodup ∧
    ((gameObj team_map g).map Prod.fst).length = 5 := by
  refine ⟨rfl, ?_, rfl⟩
  show (["gameId", "date", "homeTeamId", "awayTeamId", "sequence"] :
    List String).Nodup
  decide

theorem c6_witness :
    ((gameObj c6tm c6g).map Prod.fst).Nodup ∧
    ((gameObj c6tm c6g).map Prod.fst).length = 5 :=
  ⟨(c6_schedule_fields c6tm c6g).2.1, (c6_schedule_fields c6tm c6g).2.2⟩

/-! ### Claim C7 -/

/-- An identifier absent from the directory always resolves to `"UNK"`. -/
theorem teamLookup_miss (m : List (Int × String)) (tid : Int)
    (hne : ∀ kv ∈ m, kv.1 ≠ tid) : teamLookup m tid = "UNK" := by
  induction m with
  | nil => rfl
  | cons kv rest ih =>
    rw [teamLookup, if_neg (hne kv (List.mem_cons_self _ _))]
    exact ih (fun kv2 h2 => hne kv2 (List.mem_cons_of_mem _ h2))

/-- C7: when the home team identifier is not in the directory, the
projected record carries the `"UNK"` sentinel for `homeTeamId`, and
likewise, independently, for the visitor identifier and `awayTeamId` —
so any row with home or visitor unknown gets the sentinel on the
corresponding side; the lookup is a total function, so it never fails the
pipeline. -/
theorem c7_unknown_team (team_map : List (Int × String)) (g : RawGameRow) :
    ((∀ kv ∈ team_map, kv.1 ≠ g.HOME_TEAM_ID) →
      teamLookup team_map g.HOME_TEAM_ID = "UNK" ∧
      ("homeTeamId", GVal.s "UNK") ∈ gameObj team_map g) ∧
    ((∀ kv ∈ team_map, kv.1 ≠ g.VISITOR_TEAM_ID) →
      teamLookup team_map g.VISITOR_TEAM_ID = "UNK" ∧
      ("awayTeamId", GVal.s "UNK") ∈ gameObj team_map g) := by
  constructor
  · intro hh
    refine ⟨teamLookup_miss _ _ hh, ?_⟩
    rw [gameObj, teamLookup_miss _ _ hh]
    simp
  · intro hv
    refine ⟨teamLookup_miss _ _ hv, ?_⟩
    rw [gameObj, teamLookup_miss _ _ hv]
    simp

theorem c7_witness :
    teamLookup c6tm c6g.VISITOR_TEAM_ID = "UNK" ∧
    ("awayTeamId", GVal.s "UNK") ∈ gameObj c6tm c6g :=
  (c7_unknown_team c6tm c6g).2 (by decide)

/-! ### Claim C9 -/

/-- C9: the snapshot is written exactly when both the games sequence and
the players mapping are non-empty; otherwise `main` only surfaces the
warning and writes nothing, with no third outcome. -/
theorem c9_write_gate (db : ApexDB) :
    (mainOutcome db = MainOutcome.saved db ↔
      db.games ≠ [] ∧ db.players ≠ []) ∧
    (mainOutcome db = MainOutcome.warned ↔
      (db.games = [] ∨ db.players = [])) := by
  rw [mainOutcome]
  by_cases hp : db.players = []
  · simp [hp]
  · by_cases hg : db.games = []
    · simp [hp, hg]
    · simp [hp, hg]

/-- Concrete snapshot with empty games and empty players. -/
def c9db : ApexDB :=
  { metadata := { generated_at := "2026-10-12T00:00:00", season := SEASON }
    games := []
    players := [] }

theorem c9_witness : mainOutcome c9db = MainOutcome.warned :=
  (c9_write_gate c9db).2.mpr (Or.inl rfl)

end ApexPipeline
